import Mathlib

/-!
Shallow embedding of the Google Drive backup service (`src/app.py`) and proofs
about its core pipeline: the remote file lister (`list_all_files`), the content
fetcher (`download_single_file`), the filename sanitizer (`get_safe_filename`),
the archive volume writer (`download_to_zips`), the job driver
(`process_download`) and the retention sweep (`cleanup_sessions`).

Byte strings are abstracted to their lengths (`Nat`); file content arrives as a
list of chunk sizes, mirroring the chunked `MediaIoBaseDownload` loop. Provider
behaviour (per-file responses, write failures, volume-open failures) is an
explicit environment, so every control path of the Python code is represented.
-/

namespace GoogleMigrator

/-- One record of the remote inventory, as requested by
`fields="nextPageToken, files(id, name, mimeType, parents, size, capabilities)"`.
`size` is the declared byte count (`none` when the provider omits the field);
`canDownload` is `capabilities.get('canDownload', True)` already resolved. -/
structure FileRec where
  id : String
  name : List Char
  mimeType : String
  size : Option Nat
  canDownload : Bool
deriving DecidableEq

/-! ## Filename sanitizer (`get_safe_filename` and helpers, app.py lines 364-407) -/

/-- The fixed set of Google-native MIME types (`is_google_apps_file`). -/
def google_apps_types : List String :=
  ["application/vnd.google-apps.document",
   "application/vnd.google-apps.spreadsheet",
   "application/vnd.google-apps.presentation",
   "application/vnd.google-apps.drawing"]

def is_google_apps_file (mime_type : String) : Bool :=
  google_apps_types.contains mime_type

/-- `get_export_format`: dict lookup with default `'application/pdf'`. -/
def get_export_format (mime_type : String) : String :=
  if mime_type = "application/vnd.google-apps.document" then
    "application/vnd.openxmlformats-officedocument.wordprocessingml.document"
  else if mime_type = "application/vnd.google-apps.spreadsheet" then
    "application/vnd.openxmlformats-officedocument.spreadsheetml.sheet"
  else if mime_type = "application/vnd.google-apps.presentation" then
    "application/vnd.openxmlformats-officedocument.presentationml.presentation"
  else if mime_type = "application/vnd.google-apps.drawing" then
    "application/pdf"
  else "application/pdf"

/-- `get_file_extension`: dict lookup with default `'pdf'`. -/
def get_file_extension (mime_type : String) : String :=
  if mime_type = "application/vnd.openxmlformats-officedocument.wordprocessingml.document" then
    "docx"
  else if mime_type = "application/vnd.openxmlformats-officedocument.spreadsheetml.sheet" then
    "xlsx"
  else if mime_type = "application/vnd.openxmlformats-officedocument.presentationml.presentation" then
    "pptx"
  else if mime_type = "application/pdf" then
    "pdf"
  else "pdf"

/-- The string `invalid_chars = '<>:"/\\|?*'` iterated by the sanitizer. -/
def invalid_chars : List Char := ['<', '>', ':', '\"', '/', '\\', '|', '?', '*']

/-- Python `name.replace(c, r)` for single characters. -/
def replaceChar (c r : Char) (s : List Char) : List Char :=
  s.map fun x => if x = c then r else x

/-- `get_safe_filename(file)`: replace each invalid character by an underscore
(a for-loop of `str.replace`), then for Google-native types append the export
extension unless `name.lower().endswith('.' + extension)`. -/
def get_safe_filename (file : FileRec) : List Char :=
  let name := invalid_chars.foldl (fun n c => replaceChar c '_' n) file.name
  if is_google_apps_file file.mimeType then
    let extension := get_file_extension (get_export_format file.mimeType)
    if ((String.data ("." ++ extension)).isSuffixOf (name.map Char.toLower)) then name
    else name ++ String.data ("." ++ extension)
  else name

/-! ## Content fetcher (`download_single_file`, app.py lines 337-362) -/

/-- Provider response to one per-file content request (export or raw download):
either the content, delivered as successive chunk sizes by the chunked
downloader, or an `HttpError` carrying an HTTP status code. -/
inductive FetchResp where
  | content (chunks : List Nat)
  | httpErr (status : Nat)
deriving DecidableEq

/-- `download_single_file`: accumulate chunks until done and return the bytes
(`chunks.sum` of our length abstraction); on `HttpError` with status 403 or 404
return `None` (absent) without raising; re-raise any other `HttpError`. -/
def download_single_file (resp : FetchResp) : Except Nat (Option Nat) :=
  match resp with
  | FetchResp.content chunks => Except.ok (some chunks.sum)
  | FetchResp.httpErr s =>
      if s = 403 ∨ s = 404 then Except.ok none else Except.error s

/-! ## Remote file lister (`list_all_files`, app.py lines 249-274) -/

/-- One response of the provider's `files().list` endpoint. -/
structure Page where
  files : List FileRec
  nextPageToken : Option String
deriving DecidableEq

/-- The fixed `pageSize` passed to every `files().list` call. -/
def list_pageSize : Nat := 1000

/-- The query string passed to every `files().list` call: trashed entries are
excluded at the query level. -/
def list_query : String := "trashed=false"

/-- The paging loop of `list_all_files`: consume provider responses in call
order, extend `files` with each page, stop as soon as a page has no
`nextPageToken`; an `HttpError` on any call raises
`Exception("Failed to list files: ...")` for the whole listing. A trace shorter
than the loop demands is treated as exhausted; all theorems below use traces
whose last consumed page carries no token. -/
def list_all_files_go : List (Except String Page) → List FileRec →
    Except String (List FileRec)
  | [], files => Except.ok files
  | r :: rest, files =>
    match r with
    | Except.error e => Except.error ("Failed to list files: " ++ e)
    | Except.ok page =>
      let files := files ++ page.files
      match page.nextPageToken with
      | none => Except.ok files
      | some _ => list_all_files_go rest files

def list_all_files (responses : List (Except String Page)) :
    Except String (List FileRec) :=
  list_all_files_go responses []

/-! ## Archive volume writer (`download_to_zips`, app.py lines 276-335) -/

/-- `max_zip_size = 2 * 1024 * 1024 * 1024` (2 GiB). -/
def max_zip_size : Nat := 2 * 1024 * 1024 * 1024

/-- `int(file.get('size', 0)) or 1024`: a missing declared size yields `0`,
and `0 or 1024` is `1024`, so files with no (or zero) declared size count as a
nominal 1 KiB for the rollover check. -/
def effective_size : Option Nat → Nat
  | none => 1024
  | some n => if n = 0 then 1024 else n

/-- `f"drive_backup_{zip_index:03d}.zip"`: zero-pad the index to 3 digits. -/
def pad3 (n : Nat) : String :=
  let s := toString n
  if 3 ≤ s.length then s else String.mk (List.replicate (3 - s.length) '0') ++ s

def zip_filename (zip_index : Nat) : String :=
  "drive_backup_" ++ pad3 zip_index ++ ".zip"

/-- Environment of one `download_to_zips` run: `fetch i` is the provider's
response to the content request for the `i`-th inventory record;
`writestrFails i` says whether `zip_writer.writestr` raises on that record
(caught by the per-file `except`); `openFails k` says whether
`zipfile.ZipFile(...)` raises when opening the volume with index `k`
(not caught inside the loop). -/
structure Env where
  fetch : Nat → FetchResp
  writestrFails : Nat → Bool
  openFails : Nat → Bool

/-- The mutable state of `download_to_zips` together with the progress fields
of the session it mutates, plus open/close instrumentation: `zip_writer` is the
index of the volume the variable currently refers to (`none` before the first
open), `openedVolumes`/`closedVolumes` record every successful
`zipfile.ZipFile` open and every `close()` call, and `entries` records each
`writestr` as (volume index, entry name, byte count). -/
structure WriterState where
  zip_index : Nat
  current_zip_size : Nat
  zip_writer : Option Nat
  processed_files : Nat
  current_file : List Char
  zip_files : List String
  openedVolumes : List Nat
  closedVolumes : List Nat
  entries : List (Nat × List Char × Nat)
deriving DecidableEq

/-- State at entry of `download_to_zips` (`zip_index = 1`, nothing open,
progress fields as reset by the start-request handler). -/
def initState : WriterState :=
  { zip_index := 1, current_zip_size := 0, zip_writer := none,
    processed_files := 0, current_file := [], zip_files := [],
    openedVolumes := [], closedVolumes := [], entries := [] }

/-- Open a new volume: `zipfile.ZipFile(zip_path, 'w', ...)`, reset
`current_zip_size`, bump `zip_index`, append the filename to the progress
list. If the open raises, the exception escapes the loop and the Python
variable `zip_writer` keeps its previous value. Returns the updated state and
the index of the volume now open. -/
def openVolume (env : Env) (st : WriterState) :
    Except WriterState (WriterState × Nat) :=
  if env.openFails st.zip_index then Except.error st
  else
    Except.ok ({ st with
        zip_writer := some st.zip_index
        openedVolumes := st.openedVolumes ++ [st.zip_index]
        current_zip_size := 0
        zip_index := st.zip_index + 1
        zip_files := st.zip_files ++ [zip_filename st.zip_index] }, st.zip_index)

/-- The rollover guard `if zip_writer is None or current_zip_size + file_size >
max_zip_size`: close the current volume (if any) and open a new one; otherwise
keep writing into the open volume. Returns the index of the volume to write
into. -/
def rollover (env : Env) (st : WriterState) (file_size : Nat) :
    Except WriterState (WriterState × Nat) :=
  match st.zip_writer with
  | none => openVolume env st
  | some v =>
    if max_zip_size < st.current_zip_size + file_size then
      openVolume env { st with closedVolumes := st.closedVolumes ++ [v] }
    else Except.ok (st, v)

/-- One iteration of the per-file loop for the `i`-th record `file`: skip
non-downloadable files (still counting them processed), run the rollover
guard, set `current_file` and `processed_files = i + 1`, then fetch; the inner
`try/except` turns any fetch or `writestr` exception into a skip, `None`
content and falsy (empty) content are skipped, and otherwise the entry is
written and `current_zip_size` advances by the true byte count. -/
def processFile (env : Env) (i : Nat) (file : FileRec) (st : WriterState) :
    Except WriterState WriterState :=
  if file.canDownload = false then
    Except.ok { st with processed_files := i + 1 }
  else
    let file_size := effective_size file.size
    match rollover env st file_size with
    | Except.error st1 => Except.error st1
    | Except.ok (st1, v) =>
      let st2 := { st1 with current_file := file.name, processed_files := i + 1 }
      match download_single_file (env.fetch i) with
      | Except.error _ => Except.ok st2
      | Except.ok none => Except.ok st2
      | Except.ok (some n) =>
        if n = 0 then Except.ok st2
        else if env.writestrFails i then Except.ok st2
        else Except.ok { st2 with
            entries := st2.entries ++ [(v, get_safe_filename file, n)]
            current_zip_size := st2.current_zip_size + n }

/-- The `for i, file in enumerate(files)` loop; a raised exception stops the
iteration and is reported as the Boolean flag of the result. -/
def writerLoop (env : Env) : List FileRec → Nat → WriterState →
    WriterState × Bool
  | [], _, st => (st, false)
  | file :: rest, i, st =>
    match processFile env i file st with
    | Except.error st1 => (st1, true)
    | Except.ok st1 => writerLoop env rest (i + 1) st1

/-- `download_to_zips`: run the loop, then the `finally` block closes whatever
volume `zip_writer` currently refers to, on normal exit and on exception
alike. The Boolean of the result says whether an exception escaped. -/
def download_to_zips (env : Env) (files : List FileRec) (st : WriterState) :
    WriterState × Bool :=
  let r := writerLoop env files 0 st
  match r.1.zip_writer with
  | some v => ({ r.1 with closedVolumes := r.1.closedVolumes ++ [v] }, r.2)
  | none => r

/-! ## Job driver (`process_download`, app.py lines 217-247) -/

/-- The values of `session.progress["status"]`. -/
inductive Status where
  | idle | starting | initializing | listing_files | downloading | completed
  | error
deriving DecidableEq

/-- Observable outcome of one `process_download` run. -/
structure JobOutcome where
  status : Status
  total_files : Nat
  writer : WriterState
deriving DecidableEq

/-- The folder filter of `process_download`:
`[f for f in files if f['mimeType'] != 'application/vnd.google-apps.folder']`. -/
def downloadable_files (files : List FileRec) : List FileRec :=
  files.filter fun f => f.mimeType != "application/vnd.google-apps.folder"

/-- `process_download` after authentication: list all files (a listing failure
is caught by the outer `except` and sets status `error`), filter out folders,
set `total_files`, run `download_to_zips` on the filtered inventory, and set
status `completed` on normal return or `error` if the writer raised. -/
def process_download (listing : Except String (List FileRec)) (env : Env) :
    JobOutcome :=
  match listing with
  | Except.error _ =>
      { status := Status.error, total_files := 0, writer := initState }
  | Except.ok files =>
      let dls := downloadable_files files
      let r := download_to_zips env dls initState
      { status := if r.2 then Status.error else Status.completed
        total_files := dls.length
        writer := r.1 }

/-! ## Retention sweep (`cleanup_sessions`, app.py lines 414-431) -/

/-- `cleanup_interval = 3600` seconds: the sweep sleeps one hour between
ticks. -/
def cleanup_interval : Nat := 3600

/-- The per-session data the sweep inspects (times in seconds). -/
structure Sess where
  job_id : String
  created_at : Nat
deriving DecidableEq

def job_dir (job_id : String) : String := "downloads/" ++ job_id

/-- One tick of `cleanup_sessions` at time `now`: collect the sessions with
`current_time - session.created_at > timedelta(hours=4)` (14400 s), delete
each one's job directory and remove it from the registry, regardless of job
status. Returns the surviving registry and the deleted directories. -/
def cleanup_tick (sessions : List Sess) (now : Nat) : List Sess × List String :=
  let expired := sessions.filter fun s => decide (14400 < now - s.created_at)
  (sessions.filter fun s => decide (¬ 14400 < now - s.created_at),
   expired.map fun s => job_dir s.job_id)

/-! ## Concrete instances used by the testable-property claims -/

/-- The two-file inventory of the rollover property: declared (and actual)
sizes 1.5 GiB and 1.0 GiB. -/
def c1file1 : FileRec :=
  { id := "f1", name := String.data "video1.bin",
    mimeType := "application/octet-stream",
    size := some 1610612736, canDownload := true }

def c1file2 : FileRec :=
  { id := "f2", name := String.data "video2.bin",
    mimeType := "application/octet-stream",
    size := some 1073741824, canDownload := true }

/-- Provider behaviour for the rollover scenario: each file downloads in one
chunk of exactly its declared size; nothing fails. -/
def c1env : Env :=
  { fetch := fun i => if i = 0 then FetchResp.content [1610612736]
                      else FetchResp.content [1073741824],
    writestrFails := fun _ => false, openFails := fun _ => false }

/-- The single-file inventory whose only record is downloadable but whose
fetch reports 404, so the opened volume receives no entry. -/
def c10file : FileRec :=
  { id := "g1", name := String.data "gone.bin",
    mimeType := "application/octet-stream",
    size := some 10, canDownload := true }

def c10env : Env :=
  { fetch := fun _ => FetchResp.httpErr 404,
    writestrFails := fun _ => false, openFails := fun _ => false }

/-- Inventory records for the pagination property. -/
def c2rec (k : Nat) : FileRec :=
  { id := toString k, name := String.data ("file" ++ toString k),
    mimeType := "text/plain", size := some 1, canDownload := true }

/-- Mock provider trace: three pages of 2 files each, continuation tokens
`["a", "b", None]`. -/
def c2trace : List (Except String Page) :=
  [Except.ok { files := [c2rec 1, c2rec 2], nextPageToken := some "a" },
   Except.ok { files := [c2rec 3, c2rec 4], nextPageToken := some "b" },
   Except.ok { files := [c2rec 5, c2rec 6], nextPageToken := none }]

/-- A small downloadable file and an all-success environment, used by
witnesses. -/
def smallFile : FileRec :=
  { id := "s", name := String.data "note.txt", mimeType := "text/plain",
    size := some 7, canDownload := true }

def envOk : Env :=
  { fetch := fun _ => FetchResp.content [7],
    writestrFails := fun _ => false, openFails := fun _ => false }

/-! ## Helper lemmas -/

/-- Folding single-character replacements over a list of targets none of which
is the replacement character acts pointwise. -/
theorem foldl_replaceChar_eq_map :
    ∀ (cs : List Char), '_' ∉ cs → ∀ s : List Char,
      cs.foldl (fun n c => replaceChar c '_' n) s
        = s.map fun x => if x ∈ cs then '_' else x
  | [], _, s => by simp [replaceChar]
  | c :: cs, h, s => by
    have hc : '_' ∉ cs := fun hm => h (List.mem_cons_of_mem _ hm)
    simp only [List.foldl_cons]
    rw [foldl_replaceChar_eq_map cs hc]
    simp only [replaceChar, List.map_map]
    refine List.map_congr_left ?_
    intro x _
    simp only [Function.comp_apply]
    by_cases hx : x = c
    · subst hx
      have hu : ('_' : Char) ∉ cs := hc
      simp [List.mem_cons, hu]
    · simp [List.mem_cons, hx]

theorem not_underscore_mem_invalid_chars : '_' ∉ invalid_chars := by decide

/-- `processFile` sets `processed_files` to `i + 1` on every non-raising
path. -/
theorem processFile_ok_processed {env : Env} {i : Nat} {file : FileRec}
    {st st1 : WriterState} (h : processFile env i file st = Except.ok st1) :
    st1.processed_files = i + 1 := by
  unfold processFile at h
  by_cases hcd : file.canDownload = false
  · simp only [hcd, if_true] at h
    cases h
    rfl
  · simp only [hcd, if_false] at h
    cases hro : rollover env st (effective_size file.size) with
    | error st2 => rw [hro] at h; cases h
    | ok p =>
      rw [hro] at h
      cases hdl : download_single_file (env.fetch i) with
      | error e => simp only [hdl] at h; cases h; rfl
      | ok r =>
        cases r with
        | none => simp only [hdl] at h; cases h; rfl
        | some n =>
          simp only [hdl] at h
          by_cases hn : n = 0
          · simp only [hn, if_true] at h; cases h; rfl
          · simp only [hn, if_false] at h
            by_cases hw : env.writestrFails i = true
            · simp only [hw, if_true] at h; cases h; rfl
            · simp only [eq_false_of_ne_true hw, if_false] at h; cases h; rfl

/-- `processFile` leaves `processed_files` unchanged when it raises (the only
raise is the volume open, which precedes the progress update). -/
theorem processFile_error_processed {env : Env} {i : Nat} {file : FileRec}
    {st st1 : WriterState} (h : processFile env i file st = Except.error st1) :
    st1.processed_files = st.processed_files := by
  unfold processFile at h
  by_cases hcd : file.canDownload = false
  · simp only [hcd, if_true] at h; cases h
  · simp only [hcd, if_false] at h
    cases hro : rollover env st (effective_size file.size) with
    | ok p =>
      rw [hro] at h
      cases hdl : download_single_file (env.fetch i) with
      | error e => simp only [hdl] at h; cases h
      | ok r =>
        cases r with
        | none => simp only [hdl] at h; cases h
        | some n =>
          simp only [hdl] at h
          by_cases hn : n = 0
          · simp only [hn, if_true] at h; cases h
          · simp only [hn, if_false] at h
            by_cases hw : env.writestrFails i = true
            · simp only [hw, if_true] at h; cases h
            · simp only [eq_false_of_ne_true hw, if_false] at h; cases h
    | error st2 =>
      rw [hro] at h
      cases h
      unfold rollover at hro
      cases hzw : st.zip_writer with
      | none =>
        rw [hzw] at hro
        unfold openVolume at hro
        by_cases ho : env.openFails st.zip_index = true
        · simp only [ho, if_true] at hro; cases hro; rfl
        · simp only [eq_false_of_ne_true ho, if_false] at hro; cases hro
      | some v =>
        rw [hzw] at hro
        by_cases hsz :
            max_zip_size < st.current_zip_size + effective_size file.size
        · simp only [hsz, if_true] at hro
          unfold openVolume at hro
          by_cases ho : env.openFails st.zip_index = true
          · simp only [ho, if_true] at hro; cases hro; rfl
          · simp only [eq_false_of_ne_true ho, if_false] at hro; cases hro
        · simp only [hsz, if_false] at hro; cases hro

/-- Upper bound on the progress counter: from a state whose counter is at most
`i`, processing the remaining `files` can never push it past
`i + files.length`. -/
theorem writerLoop_processed_le (env : Env) :
    ∀ (files : List FileRec) (i : Nat) (st : WriterState),
      st.processed_files ≤ i →
      (writerLoop env files i st).1.processed_files ≤ i + files.length
  | [], i, st, h => by simpa using h
  | file :: rest, i, st, h => by
    simp only [writerLoop]
    cases hp : processFile env i file st with
    | error st1 =>
      have := processFile_error_processed hp
      simp only [List.length_cons]
      omega
    | ok st1 =>
      have h1 := processFile_ok_processed hp
      have := writerLoop_processed_le env rest (i + 1) st1 (le_of_eq h1)
      simp only [List.length_cons]
      omega

/-- Exact progress count on a run that raises nothing. -/
theorem writerLoop_processed_eq (env : Env) :
    ∀ (files : List FileRec) (i : Nat) (st : WriterState),
      st.processed_files = i →
      (writerLoop env files i st).2 = false →
      (writerLoop env files i st).1.processed_files = i + files.length
  | [], i, st, h, _ => by simpa using h
  | file :: rest, i, st, h, hok => by
    simp only [writerLoop] at hok ⊢
    cases hp : processFile env i file st with
    | error st1 => rw [hp] at hok; cases hok
    | ok st1 =>
      rw [hp] at hok
      have h1 := processFile_ok_processed hp
      have := writerLoop_processed_eq env rest (i + 1) st1 h1 hok
      simp only [List.length_cons]
      omega

/-- When no volume open ever fails, `openVolume` succeeds with a fully
determined result. -/
theorem openVolume_ok {env : Env} {st : WriterState}
    (h : env.openFails st.zip_index = false) :
    openVolume env st = Except.ok ({ st with
        zip_writer := some st.zip_index
        openedVolumes := st.openedVolumes ++ [st.zip_index]
        current_zip_size := 0
        zip_index := st.zip_index + 1
        zip_files := st.zip_files ++ [zip_filename st.zip_index] },
      st.zip_index) := by
  unfold openVolume
  simp [h]

/-- Case equation: no volume is open, so the guard fires and a volume is
opened without a preceding close. -/
theorem rollover_none {env : Env} {st : WriterState} {fsize : Nat}
    (h : st.zip_writer = none) :
    rollover env st fsize = openVolume env st := by
  unfold rollover
  rw [h]

/-- Case equation: the declared size would push the total over the ceiling, so
the open volume is closed and a new one is opened. -/
theorem rollover_exceeds {env : Env} {st : WriterState} {fsize v : Nat}
    (h : st.zip_writer = some v)
    (hsz : max_zip_size < st.current_zip_size + fsize) :
    rollover env st fsize
      = openVolume env { st with
          closedVolumes := st.closedVolumes ++ [v] } := by
  unfold rollover
  rw [h]
  simp [hsz]

/-- Case equation: the file fits, the open volume is kept. -/
theorem rollover_fits {env : Env} {st : WriterState} {fsize v : Nat}
    (h : st.zip_writer = some v)
    (hsz : ¬ max_zip_size < st.current_zip_size + fsize) :
    rollover env st fsize = Except.ok (st, v) := by
  unfold rollover
  rw [h]
  simp [hsz]

/-- Case equation: a record with `canDownload = false` is counted processed
and nothing else changes. -/
theorem processFile_skip {env : Env} {i : Nat} {file : FileRec}
    {st : WriterState} (h : file.canDownload = false) :
    processFile env i file st
      = Except.ok { st with processed_files := i + 1 } := by
  unfold processFile
  rw [if_pos h]

/-- Case equation: the volume open raised, so the iteration raises before the
progress update. -/
theorem processFile_raise {env : Env} {i : Nat} {file : FileRec}
    {st st1 : WriterState} (h : file.canDownload = true)
    (hro : rollover env st (effective_size file.size) = Except.error st1) :
    processFile env i file st = Except.error st1 := by
  unfold processFile
  rw [if_neg (by simp [h])]
  simp only [hro]

/-- Case equation: the fetch raised a non-skip error; the per-file `except`
catches it and the iteration completes with only the progress fields
updated. -/
theorem processFile_fetch_error {env : Env} {i : Nat} {file : FileRec}
    {st st1 : WriterState} {v e : Nat} (h : file.canDownload = true)
    (hro : rollover env st (effective_size file.size) = Except.ok (st1, v))
    (hdl : download_single_file (env.fetch i) = Except.error e) :
    processFile env i file st
      = Except.ok { st1 with
          current_file := file.name, processed_files := i + 1 } := by
  unfold processFile
  rw [if_neg (by simp [h])]
  simp only [hro, hdl]

/-- Case equation: the fetch returned absent (403/404); the file is skipped
after being counted. -/
theorem processFile_absent {env : Env} {i : Nat} {file : FileRec}
    {st st1 : WriterState} {v : Nat} (h : file.canDownload = true)
    (hro : rollover env st (effective_size file.size) = Except.ok (st1, v))
    (hdl : download_single_file (env.fetch i) = Except.ok none) :
    processFile env i file st
      = Except.ok { st1 with
          current_file := file.name, processed_files := i + 1 } := by
  unfold processFile
  rw [if_neg (by simp [h])]
  simp only [hro, hdl]

/-- Case equation: the fetch returned empty content, which is falsy in
`if file_content:`, so the file is skipped after being counted. -/
theorem processFile_empty {env : Env} {i : Nat} {file : FileRec}
    {st st1 : WriterState} {v : Nat} (h : file.canDownload = true)
    (hro : rollover env st (effective_size file.size) = Except.ok (st1, v))
    (hdl : download_single_file (env.fetch i) = Except.ok (some 0)) :
    processFile env i file st
      = Except.ok { st1 with
          current_file := file.name, processed_files := i + 1 } := by
  unfold processFile
  rw [if_neg (by simp [h])]
  simp only [hro, hdl]
  simp

/-- Case equation: `writestr` raised; the per-file `except` catches it. -/
theorem processFile_writeFail {env : Env} {i : Nat} {file : FileRec}
    {st st1 : WriterState} {v n : Nat} (h : file.canDownload = true)
    (hro : rollover env st (effective_size file.size) = Except.ok (st1, v))
    (hdl : download_single_file (env.fetch i) = Except.ok (some n))
    (hn : n ≠ 0) (hw : env.writestrFails i = true) :
    processFile env i file st
      = Except.ok { st1 with
          current_file := file.name, processed_files := i + 1 } := by
  unfold processFile
  rw [if_neg (by simp [h])]
  simp only [hro, hdl]
  simp [hn, hw]

/-- Case equation: the entry is written into the volume the rollover handed
back and the running total advances by the true byte count. -/
theorem processFile_write {env : Env} {i : Nat} {file : FileRec}
    {st st1 : WriterState} {v n : Nat} (h : file.canDownload = true)
    (hro : rollover env st (effective_size file.size) = Except.ok (st1, v))
    (hdl : download_single_file (env.fetch i) = Except.ok (some n))
    (hn : n ≠ 0) (hw : env.writestrFails i = false) :
    processFile env i file st
      = Except.ok { st1 with
          current_file := file.name
          processed_files := i + 1
          current_zip_size := st1.current_zip_size + n
          entries := st1.entries ++ [(v, get_safe_filename file, n)] } := by
  unfold processFile
  rw [if_neg (by simp [h])]
  simp only [hro, hdl]
  simp [hn, hw]

/-- Boolean flip helper for `canDownload`. -/
theorem canDownload_true {file : FileRec} (h : ¬ file.canDownload = false) :
    file.canDownload = true := by
  cases hb : file.canDownload
  · exact absurd hb h
  · rfl

/-- When no volume open ever fails, a single loop iteration never raises. -/
theorem processFile_no_openFail (env : Env)
    (h : ∀ n, env.openFails n = false) (i : Nat) (file : FileRec)
    (st : WriterState) :
    ∃ st1, processFile env i file st = Except.ok st1 := by
  by_cases hcd : file.canDownload = false
  · exact ⟨_, processFile_skip hcd⟩
  · have hcd1 := canDownload_true hcd
    have hro : ∃ p, rollover env st (effective_size file.size) = Except.ok p := by
      cases hzw : st.zip_writer with
      | none => exact ⟨_, (rollover_none hzw).trans (openVolume_ok (h _))⟩
      | some v =>
        by_cases hsz :
            max_zip_size < st.current_zip_size + effective_size file.size
        · exact ⟨_, (rollover_exceeds hzw hsz).trans (openVolume_ok (h _))⟩
        · exact ⟨_, rollover_fits hzw hsz⟩
    obtain ⟨⟨st1, v⟩, hp⟩ := hro
    cases hdl : download_single_file (env.fetch i) with
    | error e => exact ⟨_, processFile_fetch_error hcd1 hp hdl⟩
    | ok r =>
      cases r with
      | none => exact ⟨_, processFile_absent hcd1 hp hdl⟩
      | some n =>
        by_cases hn : n = 0
        · subst hn
          exact ⟨_, processFile_empty hcd1 hp hdl⟩
        · cases hw : env.writestrFails i with
          | true => exact ⟨_, processFile_writeFail hcd1 hp hdl hn hw⟩
          | false => exact ⟨_, processFile_write hcd1 hp hdl hn hw⟩

/-- When no volume open ever fails, no exception escapes the loop. -/
theorem writerLoop_no_openFail (env : Env)
    (h : ∀ n, env.openFails n = false) :
    ∀ (files : List FileRec) (i : Nat) (st : WriterState),
      (writerLoop env files i st).2 = false
  | [], _, _ => rfl
  | file :: rest, i, st => by
    simp only [writerLoop]
    obtain ⟨st1, hp⟩ := processFile_no_openFail env h i file st
    rw [hp]
    exact writerLoop_no_openFail env h rest (i + 1) st1

/-- The scoped-resource invariant: every volume ever opened is either closed
already or is the one `zip_writer` currently refers to. -/
def VolInv (st : WriterState) : Prop :=
  ∀ v ∈ st.openedVolumes, v ∈ st.closedVolumes ∨ st.zip_writer = some v

/-- `openVolume` establishes the invariant (with the fresh volume as the one
the writer refers to) whenever every previously opened volume is already
closed, which holds at each of its call sites. -/
theorem openVolume_volInv {env : Env} {st : WriterState}
    {p : WriterState × Nat}
    (hall : ∀ u ∈ st.openedVolumes, u ∈ st.closedVolumes)
    (h : openVolume env st = Except.ok p) :
    VolInv p.1 ∧ p.1.zip_writer = some p.2 := by
  unfold openVolume at h
  by_cases ho : env.openFails st.zip_index = true
  · simp only [ho, if_true] at h; cases h
  · simp only [eq_false_of_ne_true ho, if_false] at h
    cases h
    refine ⟨?_, rfl⟩
    intro u hu
    rcases List.mem_append.1 hu with hu | hu
    · exact Or.inl (hall u hu)
    · right
      simp only [List.mem_singleton] at hu
      simp [hu]

/-- On failure `openVolume` raises with the state it was given. -/
theorem openVolume_error {env : Env} {st st1 : WriterState}
    (h : openVolume env st = Except.error st1) : st1 = st := by
  unfold openVolume at h
  by_cases ho : env.openFails st.zip_index = true
  · simp only [ho, if_true] at h
    cases h
    rfl
  · simp only [eq_false_of_ne_true ho, if_false] at h
    cases h

/-- The rollover guard keeps the invariant and hands back the volume the
writer now refers to; on failure the raised state still satisfies the
invariant. -/
theorem rollover_volInv {env : Env} {st : WriterState} {fsize : Nat}
    (hinv : VolInv st) :
    (∀ p, rollover env st fsize = Except.ok p →
      VolInv p.1 ∧ p.1.zip_writer = some p.2) ∧
    (∀ st1, rollover env st fsize = Except.error st1 → VolInv st1) := by
  cases hzw : st.zip_writer with
  | none =>
    have hall : ∀ u ∈ st.openedVolumes, u ∈ st.closedVolumes := by
      intro u hu
      rcases hinv u hu with h | h
      · exact h
      · rw [hzw] at h; cases h
    refine ⟨fun p hp => ?_, fun st1 h1 => ?_⟩
    · rw [rollover_none hzw] at hp
      exact openVolume_volInv hall hp
    · rw [rollover_none hzw] at h1
      rw [openVolume_error h1]
      exact hinv
  | some v =>
    by_cases hsz : max_zip_size < st.current_zip_size + fsize
    · have hall : ∀ u ∈ st.openedVolumes, u ∈ st.closedVolumes ++ [v] := by
        intro u hu
        rcases hinv u hu with h | h
        · exact List.mem_append.2 (Or.inl h)
        · rw [hzw] at h
          cases h
          exact List.mem_append.2 (Or.inr (List.mem_singleton.2 rfl))
      refine ⟨fun p hp => ?_, fun st1 h1 => ?_⟩
      · rw [rollover_exceeds hzw hsz] at hp
        exact openVolume_volInv hall hp
      · rw [rollover_exceeds hzw hsz] at h1
        rw [openVolume_error h1]
        intro u hu
        exact Or.inl (hall u hu)
    · refine ⟨fun p hp => ?_, fun st1 h1 => ?_⟩
      · rw [rollover_fits hzw hsz] at hp
        cases hp
        exact ⟨hinv, hzw⟩
      · rw [rollover_fits hzw hsz] at h1
        cases h1

/-- One loop iteration preserves the invariant, on both exit kinds. -/
theorem processFile_volInv {env : Env} {i : Nat} {file : FileRec}
    {st : WriterState} (hinv : VolInv st) :
    (∀ st1, processFile env i file st = Except.ok st1 → VolInv st1) ∧
    (∀ st1, processFile env i file st = Except.error st1 → VolInv st1) := by
  by_cases hcd : file.canDownload = false
  · refine ⟨fun st1 h => ?_, fun st1 h => ?_⟩
    · rw [processFile_skip hcd] at h
      cases h
      exact hinv
    · rw [processFile_skip hcd] at h
      cases h
  · have hcd1 := canDownload_true hcd
    cases hro : rollover env st (effective_size file.size) with
    | error st2 =>
      refine ⟨fun st1 h => ?_, fun st1 h => ?_⟩
      · rw [processFile_raise hcd1 hro] at h
        cases h
      · rw [processFile_raise hcd1 hro] at h
        cases h
        exact (rollover_volInv hinv).2 _ hro
    | ok p =>
      obtain ⟨stR, v⟩ := p
      have hkey := (rollover_volInv hinv).1 _ hro
      refine ⟨fun st1 h => ?_, fun st1 h => ?_⟩
      · cases hdl : download_single_file (env.fetch i) with
        | error e =>
          rw [processFile_fetch_error hcd1 hro hdl] at h
          cases h
          intro u hu
          rcases hkey.1 u hu with hc | hc
          · exact Or.inl hc
          · exact Or.inr hc
        | ok r =>
          cases r with
          | none =>
            rw [processFile_absent hcd1 hro hdl] at h
            cases h
            intro u hu
            rcases hkey.1 u hu with hc | hc
            · exact Or.inl hc
            · exact Or.inr hc
          | some n =>
            by_cases hn : n = 0
            · subst hn
              rw [processFile_empty hcd1 hro hdl] at h
              cases h
              intro u hu
              rcases hkey.1 u hu with hc | hc
              · exact Or.inl hc
              · exact Or.inr hc
            · cases hw : env.writestrFails i with
              | true =>
                rw [processFile_writeFail hcd1 hro hdl hn hw] at h
                cases h
                intro u hu
                rcases hkey.1 u hu with hc | hc
                · exact Or.inl hc
                · exact Or.inr hc
              | false =>
                rw [processFile_write hcd1 hro hdl hn hw] at h
                cases h
                intro u hu
                rcases hkey.1 u hu with hc | hc
                · exact Or.inl hc
                · exact Or.inr hc
      · cases hdl : download_single_file (env.fetch i) with
        | error e =>
          rw [processFile_fetch_error hcd1 hro hdl] at h
          cases h
        | ok r =>
          cases r with
          | none =>
            rw [processFile_absent hcd1 hro hdl] at h
            cases h
          | some n =>
            by_cases hn : n = 0
            · subst hn
              rw [processFile_empty hcd1 hro hdl] at h
              cases h
            · cases hw : env.writestrFails i with
              | true =>
                rw [processFile_writeFail hcd1 hro hdl hn hw] at h
                cases h
              | false =>
                rw [processFile_write hcd1 hro hdl hn hw] at h
                cases h

/-- The loop preserves the invariant whatever happens. -/
theorem writerLoop_volInv (env : Env) :
    ∀ (files : List FileRec) (i : Nat) (st : WriterState), VolInv st →
      VolInv (writerLoop env files i st).1
  | [], _, _, hinv => hinv
  | file :: rest, i, st, hinv => by
    simp only [writerLoop]
    cases hp : processFile env i file st with
    | error st1 => exact (processFile_volInv hinv).2 _ hp
    | ok st1 =>
      exact writerLoop_volInv env rest (i + 1) st1
        ((processFile_volInv hinv).1 _ hp)

/-- After the `finally`, every volume that was ever opened has been closed. -/
theorem download_to_zips_closes (env : Env) (files : List FileRec)
    (st : WriterState) (hinv : VolInv st) :
    ∀ v ∈ (download_to_zips env files st).1.openedVolumes,
      v ∈ (download_to_zips env files st).1.closedVolumes := by
  have hfin := writerLoop_volInv env files 0 st hinv
  simp only [download_to_zips]
  cases hzw : (writerLoop env files 0 st).1.zip_writer with
  | none =>
    intro v hv
    rcases hfin v hv with h | h
    · exact h
    · rw [hzw] at h; cases h
  | some w =>
    intro v hv
    have hv1 : v ∈ (writerLoop env files 0 st).1.openedVolumes := hv
    show v ∈ (writerLoop env files 0 st).1.closedVolumes ++ [w]
    rcases hfin v hv1 with h | h
    · exact List.mem_append.2 (Or.inl h)
    · rw [hzw] at h
      cases h
      exact List.mem_append.2 (Or.inr (List.mem_singleton.2 rfl))

/-- The `finally` block does not change the progress fields or the exception
flag. -/
theorem download_to_zips_projections (env : Env) (files : List FileRec)
    (st : WriterState) :
    (download_to_zips env files st).1.processed_files
        = (writerLoop env files 0 st).1.processed_files ∧
    (download_to_zips env files st).1.entries
        = (writerLoop env files 0 st).1.entries ∧
    (download_to_zips env files st).1.zip_files
        = (writerLoop env files 0 st).1.zip_files ∧
    (download_to_zips env files st).2 = (writerLoop env files 0 st).2 := by
  simp only [download_to_zips]
  cases hzw : (writerLoop env files 0 st).1.zip_writer with
  | none => exact ⟨rfl, rfl, rfl, rfl⟩
  | some w => exact ⟨rfl, rfl, rfl, rfl⟩

/-- When no volume open ever fails, no exception escapes `download_to_zips`. -/
theorem download_to_zips_no_openFail (env : Env)
    (h : ∀ n, env.openFails n = false) (files : List FileRec)
    (st : WriterState) :
    (download_to_zips env files st).2 = false := by
  have hl := writerLoop_no_openFail env h files 0 st
  simp only [download_to_zips]
  cases hzw : (writerLoop env files 0 st).1.zip_writer with
  | none => exact hl
  | some w => exact hl

/-- Consuming a block of pages all of which carry a continuation token just
accumulates their files in order. -/
theorem list_go_pages :
    ∀ (ps : List Page) (rest : List (Except String Page)) (acc : List FileRec),
      (∀ q ∈ ps, q.nextPageToken ≠ none) →
      list_all_files_go (ps.map Except.ok ++ rest) acc
        = list_all_files_go rest (acc ++ (ps.map Page.files).flatten)
  | [], rest, acc, _ => by simp
  | q :: ps, rest, acc, h => by
    cases htok : q.nextPageToken with
    | none => exact absurd htok (h q (List.mem_cons_self _ _))
    | some t =>
      have hrec := list_go_pages ps rest (acc ++ q.files)
        (fun r hr => h r (List.mem_cons_of_mem _ hr))
      simp only [List.map_cons, List.cons_append, list_all_files_go, htok,
        List.append_eq]
      rw [hrec]
      simp [List.append_assoc]

/-! ## Claim theorems -/

/-- C5: the Content Fetcher returns absent (without raising) exactly when the
provider reports HTTP status 403 or 404; any other provider error propagates
out of the fetch as an error for that file; successful chunked downloads
return the accumulated content. -/
theorem C5_fetch_error_contract :
    (∀ s : Nat, download_single_file (FetchResp.httpErr s) = Except.ok none
        ↔ (s = 403 ∨ s = 404))
  ∧ (∀ s : Nat, ¬ (s = 403 ∨ s = 404) →
      download_single_file (FetchResp.httpErr s) = Except.error s)
  ∧ (∀ chunks : List Nat, download_single_file (FetchResp.content chunks)
        = Except.ok (some chunks.sum)) := by
  refine ⟨fun s => ?_, fun s h => ?_, fun chunks => rfl⟩
  · unfold download_single_file
    by_cases h : s = 403 ∨ s = 404
    · simp [h]
    · simp [h]
  · simp [download_single_file, h]

/-- C5 witness: status 500 propagates as an error. -/
theorem C5_fetch_error_contract_witness :
    download_single_file (FetchResp.httpErr 500) = Except.error 500 :=
  C5_fetch_error_contract.2.1 500 (by decide)

/-- C6: the Filename Sanitizer replaces every occurrence of each character of
the set with an underscore, appends the export extension
(docx/xlsx/pptx/pdf by the fixed type mapping) for native-document types
unless the name already carries it case-insensitively, returns a clean and
correctly-suffixed name unchanged, and maps a native document named "Report"
to "Report.docx". -/
theorem C6_sanitizer :
    (∀ file : FileRec,
      get_safe_filename file =
        (let cleaned := file.name.map
            fun x => if x ∈ invalid_chars then '_' else x
         if is_google_apps_file file.mimeType then
           let extension := get_file_extension (get_export_format file.mimeType)
           if (String.data ("." ++ extension)).isSuffixOf
               (cleaned.map Char.toLower) then cleaned
           else cleaned ++ String.data ("." ++ extension)
         else cleaned))
  ∧ get_file_extension
      (get_export_format "application/vnd.google-apps.document") = "docx"
  ∧ get_file_extension
      (get_export_format "application/vnd.google-apps.spreadsheet") = "xlsx"
  ∧ get_file_extension
      (get_export_format "application/vnd.google-apps.presentation") = "pptx"
  ∧ get_file_extension
      (get_export_format "application/vnd.google-apps.drawing") = "pdf"
  ∧ (∀ file : FileRec,
      (∀ c ∈ file.name, c ∉ invalid_chars) →
      (is_google_apps_file file.mimeType = true →
        (String.data
            ("." ++ get_file_extension
                (get_export_format file.mimeType))).isSuffixOf
          (file.name.map Char.toLower) = true) →
      get_safe_filename file = file.name)
  ∧ get_safe_filename
      { id := "1", name := String.data "Report",
        mimeType := "application/vnd.google-apps.document",
        size := none, canDownload := true } = String.data "Report.docx" := by
  refine ⟨fun file => ?_, rfl, rfl, rfl, rfl,
    fun file hclean hsuffix => ?_, by decide⟩
  · unfold get_safe_filename
    rw [foldl_replaceChar_eq_map invalid_chars
      not_underscore_mem_invalid_chars]
  · unfold get_safe_filename
    rw [foldl_replaceChar_eq_map invalid_chars
      not_underscore_mem_invalid_chars]
    have hpt : ∀ x ∈ file.name,
        (if x ∈ invalid_chars then '_' else x) = x := by
      intro x hx
      rw [if_neg (hclean x hx)]
    have hid : (file.name.map
        fun x => if x ∈ invalid_chars then '_' else x) = file.name :=
      (List.map_congr_left hpt).trans (List.map_id _)
    rw [hid]
    cases hga : is_google_apps_file file.mimeType with
    | false => simp [hga]
    | true =>
      have hs := hsuffix hga
      simp at hs
      simp [hga, hs]

/-- C6 witness: a clean name already carrying the correct export extension is
returned unchanged. -/
theorem C6_sanitizer_witness :
    get_safe_filename
      { id := "2", name := String.data "Notes.docx",
        mimeType := "application/vnd.google-apps.document",
        size := none, canDownload := true } = String.data "Notes.docx" :=
  C6_sanitizer.2.2.2.2.2.1
    { id := "2", name := String.data "Notes.docx",
      mimeType := "application/vnd.google-apps.document",
      size := none, canDownload := true }
    (by decide) (by decide)

/-- C8: the sweep runs at a 1-hour interval; on a tick, every session whose
age exceeds 4 hours (14400 s) is removed from the registry and its job
directory is deleted, regardless of job state; a younger session survives; in
particular a job created 3 hours before the tick is untouched. -/
theorem C8_retention_sweep :
    cleanup_interval = 3600
  ∧ (∀ (sessions : List Sess) (now : Nat) (s : Sess), s ∈ sessions →
      14400 < now - s.created_at →
      s ∉ (cleanup_tick sessions now).1
      ∧ job_dir s.job_id ∈ (cleanup_tick sessions now).2)
  ∧ (∀ (sessions : List Sess) (now : Nat) (s : Sess), s ∈ sessions →
      ¬ 14400 < now - s.created_at →
      s ∈ (cleanup_tick sessions now).1)
  ∧ (cleanup_tick [{ job_id := "j", created_at := 0 }] 10800).1
      = [{ job_id := "j", created_at := 0 }] := by
  refine ⟨rfl, fun sessions now s hs hexp => ⟨?_, ?_⟩,
    fun sessions now s hs hke => ?_, by decide⟩
  · intro hmem
    simp only [cleanup_tick, List.mem_filter] at hmem
    rcases hmem with ⟨-, hdec⟩
    simp only [decide_eq_true_eq] at hdec
    exact hdec hexp
  · simp only [cleanup_tick]
    refine List.mem_map.2 ⟨s, ?_, rfl⟩
    refine List.mem_filter.2 ⟨hs, ?_⟩
    simpa using hexp
  · simp only [cleanup_tick]
    refine List.mem_filter.2 ⟨hs, ?_⟩
    simpa using hke

/-- C8 witness: a session 20000 s old is swept and its directory deleted. -/
theorem C8_retention_sweep_witness :
    ({ job_id := "j", created_at := 0 } : Sess)
        ∉ (cleanup_tick [{ job_id := "j", created_at := 0 }] 20000).1
    ∧ job_dir "j" ∈ (cleanup_tick [{ job_id := "j", created_at := 0 }] 20000).2 :=
  C8_retention_sweep.2.1 [{ job_id := "j", created_at := 0 }] 20000
    { job_id := "j", created_at := 0 } (by decide) (by decide)

/-- C10: the rollover (and the append of the new volume's name to the
progress list) happens before the fetch, so an inventory whose only
downloadable file fetches as absent yields a volume name in the snapshot and
an empty volume. -/
theorem C10_empty_volume :
    (download_to_zips c10env [c10file] initState).1.zip_files
        = ["drive_backup_001.zip"]
  ∧ (download_to_zips c10env [c10file] initState).1.entries = [] := by
  constructor
  · decide
  · decide

/-- C2: the lister requests fixed-size pages with the trashed filter in the
query; it consumes pages until the first one without a continuation token and
returns their concatenation in call order, ignoring anything the provider
would have produced later; a provider error on any page fails the whole
listing; the three-page mock trace yields exactly the 6 records in call
order. -/
theorem C2_lister :
    list_pageSize = 1000
  ∧ list_query = "trashed=false"
  ∧ (∀ (ps : List Page) (p : Page) (rest : List (Except String Page)),
      (∀ q ∈ ps, q.nextPageToken ≠ none) → p.nextPageToken = none →
      list_all_files ((ps ++ [p]).map Except.ok ++ rest)
        = Except.ok (((ps ++ [p]).map Page.files).flatten))
  ∧ (∀ (ps : List Page) (e : String) (rest : List (Except String Page)),
      (∀ q ∈ ps, q.nextPageToken ≠ none) →
      list_all_files (ps.map Except.ok ++ Except.error e :: rest)
        = Except.error ("Failed to list files: " ++ e))
  ∧ list_all_files c2trace
      = Except.ok [c2rec 1, c2rec 2, c2rec 3, c2rec 4, c2rec 5, c2rec 6] := by
  refine ⟨rfl, rfl, fun ps p rest hps hp => ?_,
    fun ps e rest hps => ?_, rfl⟩
  · unfold list_all_files
    rw [List.map_append, List.append_assoc]
    rw [list_go_pages ps _ [] hps]
    simp only [List.map_cons, List.cons_append, List.nil_append,
      list_all_files_go, hp]
    simp [List.map_append, List.flatten_append]
  · unfold list_all_files
    rw [list_go_pages ps _ [] hps]
    rfl

/-- First page of the C2 witness trace. -/
def c2wpage1 : Page := { files := [c2rec 1, c2rec 2], nextPageToken := some "a" }

/-- Final page of the C2 witness trace (no continuation token). -/
def c2wpage2 : Page := { files := [c2rec 3, c2rec 4], nextPageToken := none }

/-- C2 witness: a two-page trace with tokens `["a", None]` flattens in call
order even when further responses would be available. -/
theorem C2_lister_witness :
    list_all_files
      (([c2wpage1] ++ [c2wpage2]).map Except.ok ++ [Except.error "late"])
      = Except.ok ((([c2wpage1] ++ [c2wpage2]).map Page.files).flatten) :=
  C2_lister.2.2.1 [c2wpage1] c2wpage2 [Except.error "late"]
    (by decide) rfl

/-- C9: `process_download` removes folder records before setting
`total_files` and before running the writer: `total_files` is the number of
non-folder records, the filtered inventory contains exactly the non-folder
records, and the writer runs on the filtered inventory only. -/
theorem C9_folder_exclusion :
    (∀ (files : List FileRec) (env : Env),
      (process_download (Except.ok files) env).total_files
        = (downloadable_files files).length)
  ∧ (∀ (files : List FileRec) (f : FileRec),
      f ∈ downloadable_files files ↔
        f ∈ files ∧ f.mimeType ≠ "application/vnd.google-apps.folder")
  ∧ (∀ (files : List FileRec) (env : Env),
      (process_download (Except.ok files) env).writer
        = (download_to_zips env (downloadable_files files) initState).1) := by
  refine ⟨fun files env => rfl, fun files f => ?_, fun files env => rfl⟩
  unfold downloadable_files
  rw [List.mem_filter]
  simp [bne_iff_ne]

/-- C9 witness: a folder record is excluded and not counted. -/
theorem C9_folder_exclusion_witness :
    (process_download (Except.ok
        [{ id := "d", name := String.data "dir",
           mimeType := "application/vnd.google-apps.folder",
           size := none, canDownload := true }, smallFile]) envOk).total_files
      = (downloadable_files
          [{ id := "d", name := String.data "dir",
             mimeType := "application/vnd.google-apps.folder",
             size := none, canDownload := true }, smallFile]).length :=
  C9_folder_exclusion.1
    [{ id := "d", name := String.data "dir",
       mimeType := "application/vnd.google-apps.folder",
       size := none, canDownload := true }, smallFile] envOk

/-- C3: each completed iteration sets the counter to exactly its 1-based
inventory position; the counter never exceeds the remaining-record bound,
hence never exceeds `total_files`; and a job that reaches `completed` has
`processed_files = total_files`. -/
theorem C3_progress_invariant :
    (∀ (env : Env) (i : Nat) (file : FileRec) (st st1 : WriterState),
      processFile env i file st = Except.ok st1 →
      st1.processed_files = i + 1)
  ∧ (∀ (env : Env) (files : List FileRec) (i : Nat) (st : WriterState),
      st.processed_files ≤ i →
      (writerLoop env files i st).1.processed_files ≤ i + files.length)
  ∧ (∀ (env : Env) (files : List FileRec) (i : Nat) (st : WriterState),
      st.processed_files = i → (writerLoop env files i st).2 = false →
      (writerLoop env files i st).1.processed_files = i + files.length)
  ∧ (∀ (listing : Except String (List FileRec)) (env : Env),
      (process_download listing env).writer.processed_files
        ≤ (process_download listing env).total_files)
  ∧ (∀ (listing : Except String (List FileRec)) (env : Env),
      (process_download listing env).status = Status.completed →
      (process_download listing env).writer.processed_files
        = (process_download listing env).total_files) := by
  refine ⟨fun env i file st st1 h => processFile_ok_processed h,
    fun env files i st h => writerLoop_processed_le env files i st h,
    fun env files i st h hok => writerLoop_processed_eq env files i st h hok,
    fun listing env => ?_, fun listing env => ?_⟩
  · cases listing with
    | error e => exact Nat.le_refl 0
    | ok files =>
      show (download_to_zips env (downloadable_files files)
          initState).1.processed_files ≤ (downloadable_files files).length
      rw [(download_to_zips_projections env (downloadable_files files)
        initState).1]
      simpa using writerLoop_processed_le env (downloadable_files files) 0
        initState (Nat.le_refl 0)
  · cases listing with
    | error e =>
      intro hst
      exact Status.noConfusion hst
    | ok files =>
      intro hst
      have hst2 : (if (download_to_zips env (downloadable_files files)
          initState).2 then Status.error else Status.completed)
          = Status.completed := hst
      show (download_to_zips env (downloadable_files files)
          initState).1.processed_files = (downloadable_files files).length
      cases hb : (download_to_zips env (downloadable_files files)
          initState).2 with
      | true =>
        rw [hb] at hst2
        simp at hst2
      | false =>
        rw [(download_to_zips_projections env (downloadable_files files)
          initState).1]
        have hl : (writerLoop env (downloadable_files files) 0
            initState).2 = false := by
          rw [← (download_to_zips_projections env (downloadable_files files)
            initState).2.2.2]
          exact hb
        simpa using writerLoop_processed_eq env (downloadable_files files) 0
          initState rfl hl

/-- C3 witness: a completed two-record run counts both records. -/
theorem C3_progress_invariant_witness :
    (writerLoop c1env [c1file1, c1file2] 0 initState).1.processed_files
      = 0 + 2 :=
  C3_progress_invariant.2.2.1 c1env [c1file1, c1file2] 0 initState rfl
    (by decide)

/-- C4: a `canDownload = false` record is counted processed with no entry and
no bytes; an absent fetch is counted and skipped; a per-file fetch error and
a per-file write error are each caught inside the loop and counted as skips;
and when no volume open fails, no exception ever escapes the writer, whatever
the per-file fetch and write outcomes are. -/
theorem C4_per_file_tolerance :
    (∀ (env : Env) (i : Nat) (file : FileRec) (st : WriterState),
      file.canDownload = false →
      processFile env i file st
        = Except.ok { st with processed_files := i + 1 })
  ∧ (∀ (env : Env) (i : Nat) (file : FileRec) (st st1 : WriterState)
        (v : Nat),
      file.canDownload = true →
      rollover env st (effective_size file.size) = Except.ok (st1, v) →
      download_single_file (env.fetch i) = Except.ok none →
      processFile env i file st = Except.ok { st1 with
        current_file := file.name, processed_files := i + 1 })
  ∧ (∀ (env : Env) (i : Nat) (file : FileRec) (st st1 : WriterState)
        (v e : Nat),
      file.canDownload = true →
      rollover env st (effective_size file.size) = Except.ok (st1, v) →
      download_single_file (env.fetch i) = Except.error e →
      processFile env i file st = Except.ok { st1 with
        current_file := file.name, processed_files := i + 1 })
  ∧ (∀ (env : Env) (i : Nat) (file : FileRec) (st st1 : WriterState)
        (v n : Nat),
      file.canDownload = true →
      rollover env st (effective_size file.size) = Except.ok (st1, v) →
      download_single_file (env.fetch i) = Except.ok (some n) → n ≠ 0 →
      env.writestrFails i = true →
      processFile env i file st = Except.ok { st1 with
        current_file := file.name, processed_files := i + 1 })
  ∧ (∀ (env : Env) (files : List FileRec) (st : WriterState),
      (∀ n, env.openFails n = false) →
      (download_to_zips env files st).2 = false) :=
  ⟨fun _ _ _ _ h => processFile_skip h,
   fun _ _ _ _ _ _ h hro hdl => processFile_absent h hro hdl,
   fun _ _ _ _ _ _ _ h hro hdl => processFile_fetch_error h hro hdl,
   fun _ _ _ _ _ _ _ h hro hdl hn hw =>
     processFile_writeFail h hro hdl hn hw,
   fun env files st h => download_to_zips_no_openFail env h files st⟩

/-- C4 witness: a non-downloadable record is counted and contributes
nothing. -/
theorem C4_per_file_tolerance_witness :
    processFile envOk 3
      { id := "n", name := String.data "locked.bin", mimeType := "text/plain",
        size := some 5, canDownload := false } initState
      = Except.ok { initState with processed_files := 4 } :=
  C4_per_file_tolerance.1 envOk 3
    { id := "n", name := String.data "locked.bin", mimeType := "text/plain",
      size := some 5, canDownload := false } initState rfl

/-- C7: on every exit path of the writer — normal completion and every raise
— the `finally` block leaves no opened volume unclosed. -/
theorem C7_scoped_resource :
    ∀ (env : Env) (files : List FileRec) (st : WriterState),
      (∀ v ∈ st.openedVolumes,
        v ∈ st.closedVolumes ∨ st.zip_writer = some v) →
      ∀ v ∈ (download_to_zips env files st).1.openedVolumes,
        v ∈ (download_to_zips env files st).1.closedVolumes :=
  fun env files st hinv => download_to_zips_closes env files st hinv

/-- C7 witness: the volume opened for a one-file inventory is closed when the
writer returns. -/
theorem C7_scoped_resource_witness :
    1 ∈ (download_to_zips envOk [smallFile] initState).1.closedVolumes :=
  C7_scoped_resource envOk [smallFile] initState
    (fun v hv => absurd hv (List.not_mem_nil v)) 1 (by decide)

/-- C1: the ceiling is 2 GiB; an unknown declared size counts as 1 KiB for
the threshold only; when no volume is open, or the declared size would push
the running total over the ceiling, the current volume (if any) is closed and
a volume with the next 1-based zero-padded-to-3-digits index is opened and
appended to the progress list; otherwise the open volume is kept; a written
entry advances the total by the true byte count; and the 1.5 GiB + 1.0 GiB
inventory produces exactly two volumes holding one file each. -/
theorem C1_volume_rollover :
    max_zip_size = 2 * 1024 * 1024 * 1024
  ∧ effective_size none = 1024
  ∧ (∀ (env : Env) (st : WriterState) (fsize : Nat),
      st.zip_writer = none → env.openFails st.zip_index = false →
      rollover env st fsize = Except.ok ({ st with
          zip_writer := some st.zip_index
          openedVolumes := st.openedVolumes ++ [st.zip_index]
          current_zip_size := 0
          zip_index := st.zip_index + 1
          zip_files := st.zip_files ++ [zip_filename st.zip_index] },
        st.zip_index))
  ∧ (∀ (env : Env) (st : WriterState) (fsize v : Nat),
      st.zip_writer = some v →
      max_zip_size < st.current_zip_size + fsize →
      env.openFails st.zip_index = false →
      rollover env st fsize = Except.ok ({ st with
          closedVolumes := st.closedVolumes ++ [v]
          zip_writer := some st.zip_index
          openedVolumes := st.openedVolumes ++ [st.zip_index]
          current_zip_size := 0
          zip_index := st.zip_index + 1
          zip_files := st.zip_files ++ [zip_filename st.zip_index] },
        st.zip_index))
  ∧ (∀ (env : Env) (st : WriterState) (fsize v : Nat),
      st.zip_writer = some v →
      ¬ max_zip_size < st.current_zip_size + fsize →
      rollover env st fsize = Except.ok (st, v))
  ∧ initState.zip_index = 1
  ∧ zip_filename 1 = "drive_backup_001.zip"
  ∧ zip_filename 12 = "drive_backup_012.zip"
  ∧ zip_filename 123 = "drive_backup_123.zip"
  ∧ (∀ (env : Env) (i : Nat) (file : FileRec) (st st1 : WriterState)
        (v n : Nat),
      file.canDownload = true →
      rollover env st (effective_size file.size) = Except.ok (st1, v) →
      download_single_file (env.fetch i) = Except.ok (some n) → n ≠ 0 →
      env.writestrFails i = false →
      processFile env i file st = Except.ok { st1 with
          current_file := file.name
          processed_files := i + 1
          current_zip_size := st1.current_zip_size + n
          entries := st1.entries ++ [(v, get_safe_filename file, n)] })
  ∧ (download_to_zips c1env [c1file1, c1file2] initState).1.zip_files
      = ["drive_backup_001.zip", "drive_backup_002.zip"]
  ∧ (download_to_zips c1env [c1file1, c1file2] initState).1.entries
      = [(1, String.data "video1.bin", 1610612736),
         (2, String.data "video2.bin", 1073741824)] := by
  refine ⟨rfl, rfl, fun env st fsize hzw ho => ?_,
    fun env st fsize v hzw hsz ho => ?_,
    fun env st fsize v hzw hsz => rollover_fits hzw hsz,
    rfl, by decide, by decide, by decide,
    fun env i file st st1 v n h hro hdl hn hw =>
      processFile_write h hro hdl hn hw,
    by decide, by decide⟩
  · exact (rollover_none hzw).trans (openVolume_ok ho)
  · exact (rollover_exceeds hzw hsz).trans (openVolume_ok ho)

/-- C1 witness: from the initial state (no volume open) the guard opens
volume 001 and appends its name to the progress list. -/
theorem C1_volume_rollover_witness :
    rollover envOk initState 5 = Except.ok ({ initState with
        zip_writer := some 1, openedVolumes := [1], current_zip_size := 0,
        zip_index := 2, zip_files := [zip_filename 1] }, 1) :=
  C1_volume_rollover.2.2.1 envOk initState 5 rfl rfl

end GoogleMigrator
